import Mathlib

/-!
Shallow embedding of the hackingco/workflow task orchestrator and hive-mind
knowledge store, translated from the TypeScript source
(`TaskOrchestrator` with its `PriorityTaskQueue`, and `HiveMind`).

Modelling conventions:
* JS `Map` is an insertion-ordered association list with unique keys
  (`mapLookup` / `mapSet` / `mapDelete` mirror `get` / `set` / `delete`).
* JS `Set` of strings is an insertion-ordered duplicate-free list
  (`setAdd` / `setDelete`).
* JS numbers that carry fractional values (confidences, thresholds, delays)
  are rationals; timestamps are naturals supplied as explicit `now` arguments.
* Event emission, tracing, and fields that no modelled claim observes
  (the write-only `dependencyGraph` map, the hive `patterns` map, uuid
  generation for absent ids) are omitted; each omission is noted at the
  definition it concerns.
-/

namespace Workflow

/-- Association-list model of a JS `Map` keyed by strings: `Map.get`. -/
def mapLookup {α : Type} : List (String × α) → String → Option α
  | [], _ => none
  | (k', v) :: rest, k => if k' = k then some v else mapLookup rest k

/-- `Map.set`: replace in place when the key is present, else append. -/
def mapSet {α : Type} : List (String × α) → String → α → List (String × α)
  | [], k, v => [(k, v)]
  | (k', v') :: rest, k, v =>
    if k' = k then (k, v) :: rest else (k', v') :: mapSet rest k v

/-- `Map.delete`: drop the entry with the key. -/
def mapDelete {α : Type} (m : List (String × α)) (k : String) : List (String × α) :=
  m.filter (fun p => p.1 ≠ k)

/-- JS `Set.add`: append when absent. -/
def setAdd (l : List String) (x : String) : List String :=
  if x ∈ l then l else l ++ [x]

/-- JS `Set.delete`. -/
def setDelete (l : List String) (x : String) : List String :=
  l.filter (fun y => y ≠ x)

/-- `TaskStatus` from `swarm/types.ts`. -/
inductive TaskStatus
  | pending
  | assigned
  | running
  | completed
  | failed
  | timeout
  | cancelled
  deriving DecidableEq, Repr

/-- `Priority` from `swarm/types.ts`. -/
inductive Priority
  | critical
  | high
  | medium
  | low
  deriving DecidableEq, Repr

/-- `BackoffStrategy` from `swarm/types.ts`. -/
inductive BackoffStrategy
  | linear
  | exponential
  | constant
  | custom
  deriving DecidableEq, Repr

/-- `RetryPolicy` from `swarm/types.ts` (`retryableErrors` is unused by
the orchestrator and omitted). -/
structure RetryPolicy where
  maxRetries : ℕ
  backoffStrategy : BackoffStrategy
  initialDelay : ℚ
  maxDelay : ℚ
  deriving DecidableEq, Repr

/-- `TaskResult`: the fields the orchestrator reads (opaque payload, error
object, metrics and wall-clock timestamps omitted). -/
structure TaskResult where
  taskId : String
  agentId : String
  status : TaskStatus
  deriving DecidableEq, Repr

/-- `TaskInstance` from the orchestrator (wall-clock `startTime`/`endTime`
omitted; `nextRetryTime` kept as a rational instant). -/
structure TaskInstance where
  id : String
  priority : Priority
  status : TaskStatus
  assignedAgent : Option String
  attempts : ℕ
  results : List TaskResult
  dependencies : List String
  dependents : List String
  nextRetryTime : Option ℚ
  deriving DecidableEq, Repr

/-- A submitted `Task`: id, priority and `requirements.dependencies`
(the other payload fields are opaque to the orchestrator). -/
structure Task where
  id : String
  priority : Priority
  dependencies : List String
  deriving DecidableEq, Repr

/-- `PriorityTaskQueue`: one FIFO list per priority tier. -/
structure PriorityTaskQueue where
  critical : List TaskInstance
  high : List TaskInstance
  medium : List TaskInstance
  low : List TaskInstance
  deriving DecidableEq, Repr

namespace PriorityTaskQueue

/-- The empty queue (constructor). -/
def empty : PriorityTaskQueue := ⟨[], [], [], []⟩

/-- `add`: push onto the tail of the task's priority tier. -/
def add (q : PriorityTaskQueue) (t : TaskInstance) : PriorityTaskQueue :=
  match t.priority with
  | .critical => { q with critical := q.critical ++ [t] }
  | .high => { q with high := q.high ++ [t] }
  | .medium => { q with medium := q.medium ++ [t] }
  | .low => { q with low := q.low ++ [t] }

/-- Remove the first entry with the id from one tier's list, if present. -/
def removeFromList (l : List TaskInstance) (taskId : String) :
    Option (List TaskInstance) :=
  match l with
  | [] => none
  | t :: rest =>
    if t.id = taskId then some rest
    else (removeFromList rest taskId).map (fun r => t :: r)

/-- `remove`: scan tiers in priority order, splice out the first match. -/
def remove (q : PriorityTaskQueue) (taskId : String) : PriorityTaskQueue :=
  match removeFromList q.critical taskId with
  | some c => { q with critical := c }
  | none =>
    match removeFromList q.high taskId with
    | some h => { q with high := h }
    | none =>
      match removeFromList q.medium taskId with
      | some m => { q with medium := m }
      | none =>
        match removeFromList q.low taskId with
        | some l => { q with low := l }
        | none => q

/-- `getNext`: shift the head of the highest non-empty priority tier. -/
def getNext (q : PriorityTaskQueue) : Option (TaskInstance × PriorityTaskQueue) :=
  match q.critical with
  | t :: rest => some (t, { q with critical := rest })
  | [] =>
    match q.high with
    | t :: rest => some (t, { q with high := rest })
    | [] =>
      match q.medium with
      | t :: rest => some (t, { q with medium := rest })
      | [] =>
        match q.low with
        | t :: rest => some (t, { q with low := rest })
        | [] => none

/-- `size`: total number of queued tasks. -/
def size (q : PriorityTaskQueue) : ℕ :=
  q.critical.length + q.high.length + q.medium.length + q.low.length

end PriorityTaskQueue

/-- The orchestrator state the modelled operations touch: the task map, the
priority queue, and the configured retry policy and queue bound.  The
write-only `dependencyGraph` map and the agent registry (read only by the
assignment loop, which receives the available agents as an argument here)
are not part of the state. -/
structure OrchState where
  tasks : List (String × TaskInstance)
  queue : PriorityTaskQueue
  retryPolicy : RetryPolicy
  maxQueueSize : ℕ
  deriving DecidableEq, Repr

namespace TaskOrchestrator

open Workflow.PriorityTaskQueue

/-- `canQueueTask`: every dependency is present and completed. -/
def canQueueTask (s : OrchState) (t : TaskInstance) : Bool :=
  t.dependencies.all (fun depId =>
    match mapLookup s.tasks depId with
    | some dep => dep.status = TaskStatus.completed
    | none => false)

/-- One step of `updateDependencyGraph`: add the submitted id to the
dependents set of one present dependency. -/
def addDependentTo (tid : String) (m : List (String × TaskInstance))
    (depId : String) : List (String × TaskInstance) :=
  match mapLookup m depId with
  | some dep => mapSet m depId { dep with dependents := setAdd dep.dependents tid }
  | none => m

/-- `updateDependencyGraph`: record the new task as a dependent of each of
its present dependencies (the separate `dependencyGraph` map is written but
never read, and is omitted). -/
def updateDependencyGraph (tasks : List (String × TaskInstance))
    (t : TaskInstance) : List (String × TaskInstance) :=
  t.dependencies.foldl (addDependentTo t.id) tasks

/-- `submitTask`: reject only when the queue is full; otherwise build a fresh
pending instance, store it under its id (overwriting any existing entry with
that id), wire the dependency graph, and enqueue it when its dependencies are
all completed.  Uuid generation for an absent id is omitted: submitted tasks
carry their id. -/
def submitTask (s : OrchState) (t : Task) : Except String OrchState :=
  if s.queue.size ≥ s.maxQueueSize then Except.error "Task queue is full"
  else
    let inst : TaskInstance :=
      { id := t.id
        priority := t.priority
        status := TaskStatus.pending
        assignedAgent := none
        attempts := 0
        results := []
        dependencies := t.dependencies
        dependents := []
        nextRetryTime := none }
    let tasks1 := mapSet s.tasks inst.id inst
    let tasks2 := updateDependencyGraph tasks1 inst
    let s1 : OrchState := { s with tasks := tasks2 }
    Except.ok (if canQueueTask s1 inst then { s1 with queue := s1.queue.add inst } else s1)

/-- `getTaskStatus`: the stored status, or `CANCELLED` when the id is
unknown. -/
def getTaskStatus (s : OrchState) (taskId : String) : TaskStatus :=
  match mapLookup s.tasks taskId with
  | some t => t.status
  | none => TaskStatus.cancelled

/-- `getTaskResult`: the last recorded result, or `null` when the id is
unknown or no result was recorded. -/
def getTaskResult (s : OrchState) (taskId : String) : Option TaskResult :=
  match mapLookup s.tasks taskId with
  | some t => t.results.getLast?
  | none => none

/-- `cancelTask`: mark the task cancelled, drop it from the queue, then
recurse into its dependents.  The recursion is fuelled because the source
recursion is unbounded on cyclic dependent graphs; fuel at least the number
of reachable dependents reproduces the source on acyclic graphs. -/
def cancelTask : ℕ → OrchState → String → OrchState
  | 0, s, _ => s
  | fuel + 1, s, taskId =>
    match mapLookup s.tasks taskId with
    | none => s
    | some task =>
      let s1 : OrchState :=
        { s with
          tasks := mapSet s.tasks taskId { task with status := TaskStatus.cancelled }
          queue := s.queue.remove taskId }
      task.dependents.foldl (fun st depId => cancelTask fuel st depId) s1

/-- `shouldRetry`: retry while `attempts ≤ maxRetries`. -/
def shouldRetry (policy : RetryPolicy) (t : TaskInstance) : Bool :=
  t.attempts ≤ policy.maxRetries

/-- `calculateRetryDelay`: `attempt := attempts - 1`, then
linear `initialDelay * attempt`, exponential `initialDelay * 2 ^ (attempt - 1)`
(a JS `Math.pow` with a possibly negative integer exponent), constant (and the
`default` switch branch) `initialDelay`; capped by `maxDelay`. -/
def calculateRetryDelay (policy : RetryPolicy) (attempts : ℕ) : ℚ :=
  let attempt : ℤ := (attempts : ℤ) - 1
  let delay : ℚ :=
    match policy.backoffStrategy with
    | .linear => policy.initialDelay * (attempt : ℚ)
    | .exponential => policy.initialDelay * (2 : ℚ) ^ (attempt - 1)
    | .constant => policy.initialDelay
    | .custom => policy.initialDelay
  min delay policy.maxDelay

/-- `handleTaskCompletion`: unblock dependents (erase the completed id from
their dependency sets, enqueue those that became ready), then delete the task
from the map when it has no dependents. -/
def handleTaskCompletion (s : OrchState) (taskId : String) : OrchState :=
  match mapLookup s.tasks taskId with
  | none => s
  | some task =>
    let s1 := task.dependents.foldl (fun st depId =>
      match mapLookup st.tasks depId with
      | some dep =>
        let dep1 := { dep with dependencies := setDelete dep.dependencies taskId }
        let st1 : OrchState := { st with tasks := mapSet st.tasks depId dep1 }
        if canQueueTask st1 dep1 then { st1 with queue := st1.queue.add dep1 } else st1
      | none => st) s
    if task.dependents.isEmpty then { s1 with tasks := mapDelete s1.tasks taskId }
    else s1

/-- The body of `handleTaskFailure`'s cascade loop: mark one dependent
failed when it is still pending. -/
def cascadeFailDependent (st : OrchState) (depId : String) : OrchState :=
  match mapLookup st.tasks depId with
  | some dep =>
    if dep.status = TaskStatus.pending then
      { st with tasks := mapSet st.tasks depId { dep with status := TaskStatus.failed } }
    else st
  | none => st

/-- `handleTaskFailure`: when the retry policy still allows a retry, reset the
task to pending and schedule `nextRetryTime = now + delay`; otherwise mark
each still-pending direct dependent failed (the `task:cascade-failed` event).
The queue is not touched and no transitive descendant is visited. -/
def handleTaskFailure (s : OrchState) (taskId : String) (now : ℚ) : OrchState :=
  match mapLookup s.tasks taskId with
  | none => s
  | some task =>
    if shouldRetry s.retryPolicy task then
      { s with
        tasks := mapSet s.tasks taskId
          { task with
            status := TaskStatus.pending
            assignedAgent := none
            nextRetryTime := some (now + calculateRetryDelay s.retryPolicy task.attempts) } }
    else
      task.dependents.foldl cascadeFailDependent s

/-- `checkDependencies`: enqueue every pending task with a non-empty
dependency set whose dependencies are now all completed. -/
def checkDependencies (s : OrchState) : OrchState :=
  s.tasks.foldl (fun st kv =>
    let task := kv.2
    if task.status = TaskStatus.pending ∧ task.dependencies.length > 0 ∧
        canQueueTask st task then
      { st with queue := st.queue.add task }
    else st) s

/-- One round of the `assignTasks` while-loop, fuelled by the queue size.
`strategy task avail` models `IStrategy.assignTask`; an assignment removes
the chosen agent from the available list and is recorded, a `null` strategy
answer re-adds the popped task to the queue and breaks. -/
def assignTasksAux (strategy : TaskInstance → List String → Option String) :
    ℕ → PriorityTaskQueue → List String → List (String × String) →
    PriorityTaskQueue × List String × List (String × String)
  | 0, q, avail, acc => (q, avail, acc)
  | fuel + 1, q, avail, acc =>
    if q.size > 0 ∧ avail.length > 0 then
      match q.getNext with
      | none => (q, avail, acc)
      | some (task, q1) =>
        match strategy task avail with
        | some agent =>
          assignTasksAux strategy fuel q1 (avail.erase agent) (acc ++ [(task.id, agent)])
        | none => (q1.add task, avail, acc)
    else (q, avail, acc)

/-- `assignTasks`: run the loop; the queue shrinks on every iteration that
continues, so `q.size` fuel is exact. -/
def assignTasks (strategy : TaskInstance → List String → Option String)
    (q : PriorityTaskQueue) (avail : List String) :
    PriorityTaskQueue × List String × List (String × String) :=
  assignTasksAux strategy q.size q avail []

end TaskOrchestrator

/-- `ConsensusStatus` from the hive mind. -/
inductive ConsensusStatus
  | pending
  | approved
  | rejected
  | timeout
  deriving DecidableEq, Repr

/-- A consensus `Vote` (`reasoning` and the wall-clock timestamp omitted). -/
structure Vote where
  agentId : String
  value : Bool
  confidence : ℚ
  deriving DecidableEq, Repr

/-- A value stored in the knowledge map: either an opaque payload shared by
an agent, or the consensus-result record that `finalizeConsensus` shares. -/
inductive KnowledgeValue
  | payload (s : String)
  | consensusResult (proposal : String) (status : ConsensusStatus)
      (approvalRate : ℚ) (avgConfidence : ℚ)
  deriving DecidableEq, Repr

/-- `KnowledgeEntry` (the uuid `id` field, read nowhere, is omitted;
`timestamp` is a natural instant). -/
structure KnowledgeEntry where
  key : String
  value : KnowledgeValue
  agentId : String
  timestamp : ℕ
  ttl : Option ℕ
  confidence : ℚ
  votes : List (String × Bool)
  deriving DecidableEq, Repr

/-- `ConsensusRequest` (creation timestamp and the wall-clock `deadline`,
consumed only by the timer sweep, are omitted). -/
structure ConsensusRequest where
  topic : String
  proposal : String
  requester : String
  votes : List (String × Vote)
  status : ConsensusStatus
  deriving DecidableEq, Repr

/-- The hive-mind state the modelled operations touch.  The `patterns` map
(written by `detectPatterns` and `recordPattern`, observed by no claim) and
the persistence adapter are omitted. -/
structure HiveMind where
  knowledge : List (String × KnowledgeEntry)
  consensusRequests : List (String × ConsensusRequest)
  agents : List String
  maxMemorySize : ℕ
  consensusThreshold : ℚ
  deriving DecidableEq, Repr

namespace HiveMind

/-- The `enforceMemoryLimits` sort comparator: ascending confidence, ties by
ascending timestamp (the JS sort is stable, as is `mergeSort`). -/
def entryLe (a b : KnowledgeEntry) : Bool :=
  if a.confidence ≠ b.confidence then decide (a.confidence < b.confidence)
  else decide (a.timestamp ≤ b.timestamp)

/-- `enforceMemoryLimits`: when the knowledge map outgrows `maxMemorySize`,
sort ascending by (confidence, timestamp) and delete the keys of the
overhanging prefix. -/
def enforceMemoryLimits (s : HiveMind) : HiveMind :=
  if s.knowledge.length ≤ s.maxMemorySize then s
  else
    let entries := s.knowledge.mergeSort (fun a b => entryLe a.2 b.2)
    let toRemove := entries.take (entries.length - s.maxMemorySize)
    { s with knowledge := toRemove.foldl (fun m kv => mapDelete m kv.1) s.knowledge }

/-- `mergeKnowledge`: add the sharing agent's vote, recompute
`confidence = |votes| / |activeWorkers|`, and replace value and timestamp when
the incoming entry's confidence strictly exceeds the recomputed one.
With no registered agents the JS division yields `Infinity`; here it yields
`0`, and every theorem about this path assumes a non-empty agent set. -/
def mergeKnowledge (s : HiveMind) (existing nw : KnowledgeEntry) : KnowledgeEntry :=
  let votes1 := mapSet existing.votes nw.agentId true
  let conf1 : ℚ := (votes1.length : ℚ) / (s.agents.length : ℚ)
  let e1 := { existing with votes := votes1, confidence := conf1 }
  if nw.confidence > e1.confidence then
    { e1 with value := nw.value, timestamp := nw.timestamp }
  else e1

/-- `share`: build the incoming entry with the caller's confidence and a
single self-vote; merge when the key exists, else insert; then enforce the
memory limit.  `detectPatterns` only writes the omitted `patterns` map. -/
def share (s : HiveMind) (agentId key : String) (value : KnowledgeValue)
    (confidence : ℚ) (ttl : Option ℕ) (now : ℕ) : HiveMind :=
  let entry : KnowledgeEntry :=
    { key := key
      value := value
      agentId := agentId
      timestamp := now
      ttl := ttl
      confidence := confidence
      votes := [(agentId, true)] }
  let s1 :=
    match mapLookup s.knowledge key with
    | some existing =>
      { s with knowledge := mapSet s.knowledge key (mergeKnowledge s existing entry) }
    | none => { s with knowledge := mapSet s.knowledge key entry }
  enforceMemoryLimits s1

/-- `retrieve`: the stored value, lazily deleting a TTL-expired entry;
`none` models the JS `null`. -/
def retrieve (s : HiveMind) (key : String) (now : ℕ) :
    Option KnowledgeValue × HiveMind :=
  match mapLookup s.knowledge key with
  | none => (none, s)
  | some entry =>
    match entry.ttl with
    | some ttl =>
      if now - entry.timestamp > ttl then (none, { s with knowledge := mapDelete s.knowledge key })
      else (some entry.value, s)
    | none => (some entry.value, s)

/-- `registerAgent`: add the agent.  `shareKnowledge` only emits an event;
no stored entry (in particular no confidence) changes. -/
def registerAgent (s : HiveMind) (agentId : String) : HiveMind :=
  { s with agents := setAdd s.agents agentId }

/-- The per-entry body of `cleanupAgentData`'s loop: drop the agent's vote
and, when any agents remain, recompute the confidence. -/
def cleanupEntry (s : HiveMind) (agentId : String) (e : KnowledgeEntry) : KnowledgeEntry :=
  let votes1 := mapDelete e.votes agentId
  if s.agents.length > 0 then
    { e with
      votes := votes1
      confidence := (votes1.length : ℚ) / (s.agents.length : ℚ) }
  else { e with votes := votes1 }

/-- `cleanupAgentData`: drop the agent's vote from every entry and, when any
agents remain, recompute each entry's confidence from the remaining votes. -/
def cleanupAgentData (s : HiveMind) (agentId : String) : HiveMind :=
  { s with knowledge := s.knowledge.map (fun kv => (kv.1, cleanupEntry s agentId kv.2)) }

/-- `unregisterAgent`: remove the agent, then clean up its contributions. -/
def unregisterAgent (s : HiveMind) (agentId : String) : HiveMind :=
  cleanupAgentData { s with agents := setDelete s.agents agentId } agentId

/-- `finalizeConsensus`: on a still-pending session, count approvals, set
approved / rejected / timeout, then share the consensus record under
`consensus:<topic>` with confidence 1. -/
def finalizeConsensus (s : HiveMind) (requestId : String) (now : ℕ) : HiveMind :=
  match mapLookup s.consensusRequests requestId with
  | none => s
  | some request =>
    if request.status ≠ ConsensusStatus.pending then s
    else
      let approvalVotes := request.votes.filter (fun kv => kv.2.value)
      let approvals : ℕ := approvalVotes.length
      let totalConfidence : ℚ := approvalVotes.foldl (fun acc kv => acc + kv.2.confidence) 0
      let approvalRate : ℚ :=
        if request.votes.length > 0 then (approvals : ℚ) / (request.votes.length : ℚ) else 0
      let status :=
        if (request.votes.length : ℚ) < (s.agents.length : ℚ) * (1 / 2 : ℚ) then
          ConsensusStatus.timeout
        else if approvalRate ≥ s.consensusThreshold then ConsensusStatus.approved
        else ConsensusStatus.rejected
      let s1 : HiveMind :=
        { s with consensusRequests :=
            mapSet s.consensusRequests requestId { request with status := status } }
      share s1 "hive-mind" ("consensus:" ++ request.topic)
        (KnowledgeValue.consensusResult request.proposal status approvalRate
          (totalConfidence / (request.votes.length : ℚ)))
        1 none now

/-- `vote`: throw on an unknown or non-pending session; record (or replace)
the agent's vote; finalize as soon as the vote count reaches
`consensusThreshold * |activeWorkers|`. -/
def vote (s : HiveMind) (agentId requestId : String) (value : Bool)
    (confidence : ℚ) (now : ℕ) : Except String HiveMind :=
  match mapLookup s.consensusRequests requestId with
  | none => Except.error "Invalid or completed consensus request"
  | some request =>
    if request.status ≠ ConsensusStatus.pending then
      Except.error "Invalid or completed consensus request"
    else
      let v : Vote := { agentId := agentId, value := value, confidence := confidence }
      let request1 := { request with votes := mapSet request.votes agentId v }
      let s1 : HiveMind :=
        { s with consensusRequests := mapSet s.consensusRequests requestId request1 }
      if (request1.votes.length : ℚ) ≥ (s.agents.length : ℚ) * s.consensusThreshold then
        Except.ok (finalizeConsensus s1 requestId now)
      else Except.ok s1

end HiveMind

/-! ### Support definitions for the claim theorems -/

/-- Modelled from the spec (for comparison with `calculateRetryDelay`):
backoff before the retry at 1-based attempt `a` is
`min(maxDelay, initialDelay * multiplier ^ (a-1))`. -/
def specBackoff (initialDelay maxDelay multiplier : ℚ) (a : ℕ) : ℚ :=
  min maxDelay (initialDelay * multiplier ^ (a - 1))

/-- Relation between an orchestrator state and a later one in which entries
are unchanged except that some statuses were overwritten with `cancelled`. -/
def cancelEvolves (s s1 : OrchState) : Prop :=
  ∀ j, mapLookup s1.tasks j = mapLookup s.tasks j ∨
    ∃ t, mapLookup s.tasks j = some t ∧
      mapLookup s1.tasks j = some { t with status := TaskStatus.cancelled }

/-- The orchestrator's default retry policy (`maxRetries 3`, exponential,
`initialDelay 1000`, `maxDelay 60000`). -/
def defaultRetryPolicy : RetryPolicy :=
  { maxRetries := 3
    backoffStrategy := .exponential
    initialDelay := 1000
    maxDelay := 60000 }

/-- The default policy with the linear backoff strategy. -/
def linearRetryPolicy : RetryPolicy :=
  { defaultRetryPolicy with backoffStrategy := .linear }

/-- A blank pending medium-priority task instance, adjusted per example. -/
def blankInst : TaskInstance :=
  { id := ""
    priority := .medium
    status := .pending
    assignedAgent := none
    attempts := 0
    results := []
    dependencies := []
    dependents := []
    nextRetryTime := none }

/-- Medium-priority task `A` for the queue example. -/
def exTaskA : TaskInstance := { blankInst with id := "A" }

/-- Medium-priority task `B` for the queue example. -/
def exTaskB : TaskInstance := { blankInst with id := "B" }

/-- A queue whose medium tier holds `A` then `B`. -/
def exQueueC1 : PriorityTaskQueue := { critical := [], high := [], medium := [exTaskA, exTaskB], low := [] }

/-- A strategy that never returns a worker. -/
def noStrategy : TaskInstance → List String → Option String := fun _ _ => none

/-- Chain example `A → B → C`: `A` failed with retries exhausted. -/
def exC2A : TaskInstance :=
  { blankInst with id := "A", status := .failed, attempts := 4, dependents := ["B"] }

/-- Chain example: `B` pending, depends on `A`, dependent `C`. -/
def exC2B : TaskInstance :=
  { blankInst with id := "B", dependencies := ["A"], dependents := ["C"] }

/-- Chain example: `C` pending, transitively below `A`. -/
def exC2C : TaskInstance := { blankInst with id := "C", dependencies := ["B"] }

/-- The chain state `A → B → C`. -/
def exC2Chain : OrchState :=
  { tasks := [("A", exC2A), ("B", exC2B), ("C", exC2C)]
    queue := .empty
    retryPolicy := defaultRetryPolicy
    maxQueueSize := 10000 }

/-- Fan-out example `A → {B, C}`: `A` failed with retries exhausted. -/
def exC2AFan : TaskInstance := { exC2A with dependents := ["B", "C"] }

/-- Fan-out example: `B` pending, depends on `A`. -/
def exC2BFan : TaskInstance := { blankInst with id := "B", dependencies := ["A"] }

/-- Fan-out example: `C` pending, depends on `A`. -/
def exC2CFan : TaskInstance := { blankInst with id := "C", dependencies := ["A"] }

/-- The fan-out state `A → {B, C}`. -/
def exC2Fan : OrchState :=
  { exC2Chain with tasks := [("A", exC2AFan), ("B", exC2BFan), ("C", exC2CFan)] }

/-- A completed task with a recorded result and no dependents. -/
def exDoneInst : TaskInstance :=
  { blankInst with
    id := "a", status := .completed, attempts := 1
    results := [{ taskId := "a", agentId := "w", status := .completed }] }

/-- A state holding only the completed task `a`. -/
def exDoneState : OrchState :=
  { tasks := [("a", exDoneInst)]
    queue := .empty
    retryPolicy := defaultRetryPolicy
    maxQueueSize := 10000 }

/-- Resubmission of the id `a` of the already-terminal stored task. -/
def exC5Task : Task := { id := "a", priority := .medium, dependencies := [] }

/-- A state with no tasks at all. -/
def exEmptyState : OrchState :=
  { tasks := [], queue := .empty, retryPolicy := defaultRetryPolicy, maxQueueSize := 10000 }

/-- A hive with two registered agents and no knowledge. -/
def exHiveC6 : HiveMind :=
  { knowledge := []
    consensusRequests := []
    agents := ["w1", "w2"]
    maxMemorySize := 10
    consensusThreshold := 1 / 2 }

/-- The entry the first `share` of the C6 example stores: the caller's
confidence `1` kept verbatim, one self-vote. -/
def exC6Entry : KnowledgeEntry :=
  { key := "k"
    value := .payload "v"
    agentId := "w1"
    timestamp := 0
    ttl := none
    confidence := 1
    votes := [("w1", true)] }

/-- A pending consensus session with no votes yet. -/
def exReqC7 : ConsensusRequest :=
  { topic := "t", proposal := "p", requester := "w0", votes := [], status := .pending }

/-- A hive with three agents, threshold `9/10`, and the pending session `r`. -/
def exHiveC7 : HiveMind :=
  { knowledge := []
    consensusRequests := [("r", exReqC7)]
    agents := ["w1", "w2", "w3"]
    maxMemorySize := 10
    consensusThreshold := 9 / 10 }

/-- Session `r` after `w1`'s first vote (value true). -/
def exReqC7v1 : ConsensusRequest :=
  { exReqC7 with votes := [("w1", { agentId := "w1", value := true, confidence := 1 })] }

/-- Session `r` after `w1` votes again: the single recorded vote replaced. -/
def exReqC7v2 : ConsensusRequest :=
  { exReqC7 with votes := [("w1", { agentId := "w1", value := false, confidence := 1 })] }

/-- The hive after `w1`'s first vote on session `r`. -/
def exC7S1 : HiveMind := { exHiveC7 with consensusRequests := [("r", exReqC7v1)] }

/-- The hive after `w1`'s repeated vote on session `r`. -/
def exC7S2 : HiveMind := { exHiveC7 with consensusRequests := [("r", exReqC7v2)] }

/-- An already-approved consensus session. -/
def exReqC7Done : ConsensusRequest := { exReqC7 with status := .approved }

/-- A hive whose only session `d` is terminal. -/
def exHiveC7Done : HiveMind :=
  { exHiveC7 with consensusRequests := [("d", exReqC7Done)] }

/-- A hive with one agent and `maxMemorySize` (the spec's `maxKnowledge`) 3. -/
def exHiveC8 : HiveMind :=
  { knowledge := []
    consensusRequests := []
    agents := ["w1"]
    maxMemorySize := 3
    consensusThreshold := 1 }

/-- C8 scenario, first insertion: confidence `0.9`. -/
def exC8S1 : HiveMind := HiveMind.share exHiveC8 "w1" "k1" (.payload "v1") (9 / 10) none 0

/-- C8 scenario, second insertion: confidence `0.8`. -/
def exC8S2 : HiveMind := HiveMind.share exC8S1 "w1" "k2" (.payload "v2") (8 / 10) none 1

/-- C8 scenario, third insertion: confidence `0.2`. -/
def exC8S3 : HiveMind := HiveMind.share exC8S2 "w1" "k3" (.payload "v3") (2 / 10) none 2

/-- C8 scenario, fourth insertion: confidence `0.7`, which overflows the
limit and triggers eviction. -/
def exC8S4 : HiveMind := HiveMind.share exC8S3 "w1" "k4" (.payload "v4") (7 / 10) none 3

/-- The stored entry for `k1` in the C8 scenario. -/
def exC8E1 : KnowledgeEntry :=
  { key := "k1"
    value := .payload "v1"
    agentId := "w1"
    timestamp := 0
    ttl := none
    confidence := 9 / 10
    votes := [("w1", true)] }

/-- The stored entry for `k2` in the C8 scenario. -/
def exC8E2 : KnowledgeEntry :=
  { exC8E1 with key := "k2", value := .payload "v2", timestamp := 1, confidence := 8 / 10 }

/-- The stored entry for `k4` in the C8 scenario. -/
def exC8E4 : KnowledgeEntry :=
  { exC8E1 with key := "k4", value := .payload "v4", timestamp := 3, confidence := 7 / 10 }

/-! ### Helper lemmas about the map and set models -/

theorem mapLookup_mapSet_self {α : Type} (m : List (String × α)) (k : String) (v : α) :
    mapLookup (mapSet m k v) k = some v := by
  induction m with
  | nil => simp [mapSet, mapLookup]
  | cons p rest ih =>
    obtain ⟨k', v'⟩ := p
    by_cases h : k' = k
    · simp [mapSet, h, mapLookup]
    · simp [mapSet, h, mapLookup, ih]

theorem mapLookup_mapSet_ne {α : Type} (m : List (String × α)) (k j : String) (v : α)
    (h : j ≠ k) : mapLookup (mapSet m k v) j = mapLookup m j := by
  have h1 : ¬ (k = j) := fun hh => h hh.symm
  induction m with
  | nil => simp [mapSet, mapLookup, h1]
  | cons p rest ih =>
    obtain ⟨k', v'⟩ := p
    by_cases hk : k' = k
    · subst hk
      simp [mapSet, mapLookup, h1]
    · simp [mapSet, hk, mapLookup, ih]

theorem mapSet_length_of_lookup {α : Type} (m : List (String × α)) (k : String) (v v0 : α)
    (h : mapLookup m k = some v0) : (mapSet m k v).length = m.length := by
  induction m with
  | nil => simp [mapLookup] at h
  | cons p rest ih =>
    obtain ⟨k', v'⟩ := p
    by_cases hk : k' = k
    · simp [mapSet, hk]
    · simp [mapLookup, hk] at h
      simp [mapSet, hk, ih h]

theorem mapSet_length_of_none {α : Type} (m : List (String × α)) (k : String) (v : α)
    (h : mapLookup m k = none) : (mapSet m k v).length = m.length + 1 := by
  induction m with
  | nil => simp [mapSet]
  | cons p rest ih =>
    obtain ⟨k', v'⟩ := p
    by_cases hk : k' = k
    · simp [mapLookup, hk] at h
    · simp [mapLookup, hk] at h
      simp [mapSet, hk, ih h]

theorem mapLookup_mapDelete_self {α : Type} (m : List (String × α)) (k : String) :
    mapLookup (mapDelete m k) k = none := by
  induction m with
  | nil => simp [mapDelete, mapLookup]
  | cons p rest ih =>
    obtain ⟨k', v'⟩ := p
    by_cases hk : k' = k
    · simpa [mapDelete, hk] using ih
    · simpa [mapDelete, mapLookup, hk] using ih

theorem mapLookup_map_value {α : Type} (m : List (String × α)) (g : α → α) (j : String) :
    mapLookup (m.map (fun kv => (kv.1, g kv.2))) j = (mapLookup m j).map g := by
  induction m with
  | nil => simp [mapLookup]
  | cons p rest ih =>
    obtain ⟨k', v'⟩ := p
    by_cases hk : k' = j <;> simp [mapLookup, hk, ih]

/-! ### Claim C9 -/

/-- Claim C9, counterexample: the id `missing` is absent from the (empty)
task map, yet `getTaskStatus` answers the ordinary lifecycle status
`Cancelled` — not a NotFound error — and `getTaskResult` answers `null`. -/
theorem c9_unknown_id_cancelled_counterexample :
    mapLookup exEmptyState.tasks "missing" = none ∧
    TaskOrchestrator.getTaskStatus exEmptyState "missing" = TaskStatus.cancelled ∧
    TaskOrchestrator.getTaskResult exEmptyState "missing" = none :=
  ⟨rfl, rfl, rfl⟩

/-- Claim C9 as amended: a status or result query for an id that misses the
task map signals no NotFound error; `getTaskStatus` returns the valid
lifecycle status `Cancelled` and `getTaskResult` returns `null`. -/
theorem c9_unknown_id_amended (s : OrchState) (taskId : String)
    (h : mapLookup s.tasks taskId = none) :
    TaskOrchestrator.getTaskStatus s taskId = TaskStatus.cancelled ∧
    TaskOrchestrator.getTaskResult s taskId = none := by
  exact ⟨by simp [TaskOrchestrator.getTaskStatus, h], by simp [TaskOrchestrator.getTaskResult, h]⟩

/-- Witness for C9: the amended behavior at the concrete empty state. -/
theorem c9_unknown_id_amended_witness :
    TaskOrchestrator.getTaskStatus exEmptyState "nope" = TaskStatus.cancelled ∧
    TaskOrchestrator.getTaskResult exEmptyState "nope" = none :=
  c9_unknown_id_amended exEmptyState "nope" rfl

/-! ### Claim C10 -/

/-- Claim C10 (confirmed): when a completed task has no dependents,
`handleTaskCompletion` deletes it from the task map, after which
`getTaskResult` returns `null` and `getTaskStatus` no longer reports
`Completed` (it falls back to the unknown-id answer `Cancelled`). -/
theorem c10_completed_without_dependents_forgotten (s : OrchState)
    (taskId : String) (task : TaskInstance)
    (h : mapLookup s.tasks taskId = some task) (hd : task.dependents = []) :
    mapLookup (TaskOrchestrator.handleTaskCompletion s taskId).tasks taskId = none ∧
    TaskOrchestrator.getTaskResult (TaskOrchestrator.handleTaskCompletion s taskId) taskId
      = none ∧
    TaskOrchestrator.getTaskStatus (TaskOrchestrator.handleTaskCompletion s taskId) taskId
      = TaskStatus.cancelled := by
  have hres : TaskOrchestrator.handleTaskCompletion s taskId
      = { s with tasks := mapDelete s.tasks taskId } := by
    simp [TaskOrchestrator.handleTaskCompletion, h, hd]
  rw [hres]
  refine ⟨mapLookup_mapDelete_self s.tasks taskId, ?_, ?_⟩
  · simp [TaskOrchestrator.getTaskResult, mapLookup_mapDelete_self]
  · simp [TaskOrchestrator.getTaskStatus, mapLookup_mapDelete_self]

/-- Witness for C10: the concrete completed task `a` with a recorded result
is dropped; its result and completed status become unobservable. -/
theorem c10_completed_without_dependents_forgotten_witness :
    mapLookup (TaskOrchestrator.handleTaskCompletion exDoneState "a").tasks "a" = none ∧
    TaskOrchestrator.getTaskResult (TaskOrchestrator.handleTaskCompletion exDoneState "a") "a"
      = none ∧
    TaskOrchestrator.getTaskStatus (TaskOrchestrator.handleTaskCompletion exDoneState "a") "a"
      = TaskStatus.cancelled :=
  c10_completed_without_dependents_forgotten exDoneState "a" exDoneInst rfl rfl

/-! ### Claim C4 -/

theorem cancelEvolves_refl (s : OrchState) : cancelEvolves s s := fun _ => Or.inl rfl

theorem cancelEvolves_trans {s s1 s2 : OrchState}
    (h1 : cancelEvolves s s1) (h2 : cancelEvolves s1 s2) : cancelEvolves s s2 := by
  intro j
  rcases h2 j with h2j | ⟨t, ht, ht'⟩
  · rcases h1 j with h1j | ⟨t, ht, ht'⟩
    · exact Or.inl (h2j.trans h1j)
    · exact Or.inr ⟨t, ht, h2j.trans ht'⟩
  · rcases h1 j with h1j | ⟨t0, ht0, ht0'⟩
    · exact Or.inr ⟨t, h1j ▸ ht, ht'⟩
    · rw [ht0'] at ht
      have hteq : { t0 with status := TaskStatus.cancelled } = t := Option.some.inj ht
      subst hteq
      exact Or.inr ⟨t0, ht0, ht'⟩

theorem cancelEvolves_foldl (fuel : ℕ)
    (ih : ∀ s taskId, cancelEvolves s (TaskOrchestrator.cancelTask fuel s taskId)) :
    ∀ (l : List String) (s : OrchState),
      cancelEvolves s (l.foldl (fun st d => TaskOrchestrator.cancelTask fuel st d) s) := by
  intro l
  induction l with
  | nil => intro s; exact cancelEvolves_refl s
  | cons d rest ihl =>
    intro s
    simp only [List.foldl_cons]
    exact cancelEvolves_trans (ih s d) (ihl _)

theorem cancelEvolves_cancelTask (fuel : ℕ) :
    ∀ (s : OrchState) (taskId : String),
      cancelEvolves s (TaskOrchestrator.cancelTask fuel s taskId) := by
  induction fuel with
  | zero => intro s taskId; exact cancelEvolves_refl s
  | succ fuel ih =>
    intro s taskId
    cases hl : mapLookup s.tasks taskId with
    | none =>
      simpa [TaskOrchestrator.cancelTask, hl] using cancelEvolves_refl s
    | some task =>
      have heq : TaskOrchestrator.cancelTask (fuel + 1) s taskId
          = task.dependents.foldl (fun st d => TaskOrchestrator.cancelTask fuel st d)
              { s with
                tasks := mapSet s.tasks taskId { task with status := TaskStatus.cancelled }
                queue := s.queue.remove taskId } := by
        simp [TaskOrchestrator.cancelTask, hl]
      rw [heq]
      refine cancelEvolves_trans ?_ (cancelEvolves_foldl fuel ih task.dependents _)
      intro j
      by_cases hj : j = taskId
      · subst hj
        exact Or.inr ⟨task, hl, mapLookup_mapSet_self s.tasks j _⟩
      · exact Or.inl (mapLookup_mapSet_ne s.tasks taskId j _ hj)

/-- Claim C4, counterexample: task `a` is stored as `Completed`, a terminal
state, yet `cancelTask` moves it to `Cancelled`. -/
theorem c4_completed_to_cancelled_counterexample :
    mapLookup exDoneState.tasks "a" = some exDoneInst ∧
    exDoneInst.status = TaskStatus.completed ∧
    TaskOrchestrator.getTaskStatus (TaskOrchestrator.cancelTask 1 exDoneState "a") "a"
      = TaskStatus.cancelled :=
  ⟨rfl, rfl, rfl⟩

/-- Claim C4 as amended: `cancelTask` protects no terminal state — it sets
the status of the named task (whatever its current status, including
`Completed` and `Failed`) to `Cancelled`, and every task it changes while
recursing through dependents is likewise overwritten with `Cancelled`. -/
theorem c4_cancel_overrides_terminal_amended (fuel : ℕ) (s : OrchState)
    (taskId : String) (task : TaskInstance)
    (h : mapLookup s.tasks taskId = some task) :
    TaskOrchestrator.getTaskStatus (TaskOrchestrator.cancelTask (fuel + 1) s taskId) taskId
      = TaskStatus.cancelled ∧
    cancelEvolves s (TaskOrchestrator.cancelTask (fuel + 1) s taskId) := by
  refine ⟨?_, cancelEvolves_cancelTask (fuel + 1) s taskId⟩
  have heq : TaskOrchestrator.cancelTask (fuel + 1) s taskId
      = task.dependents.foldl (fun st d => TaskOrchestrator.cancelTask fuel st d)
          { s with
            tasks := mapSet s.tasks taskId { task with status := TaskStatus.cancelled }
            queue := s.queue.remove taskId } := by
    simp [TaskOrchestrator.cancelTask, h]
  rw [heq]
  have hev := cancelEvolves_foldl fuel (cancelEvolves_cancelTask fuel) task.dependents
    { s with
      tasks := mapSet s.tasks taskId { task with status := TaskStatus.cancelled }
      queue := s.queue.remove taskId }
  rcases hev taskId with hsame | ⟨t, ht, ht'⟩
  · rw [TaskOrchestrator.getTaskStatus, hsame, mapLookup_mapSet_self]
  · rw [mapLookup_mapSet_self] at ht
    have hteq : { task with status := TaskStatus.cancelled } = t := Option.some.inj ht
    subst hteq
    rw [TaskOrchestrator.getTaskStatus, ht']

/-- Witness for C4: the amended statement at the completed task `a`. -/
theorem c4_cancel_overrides_terminal_amended_witness :
    TaskOrchestrator.getTaskStatus (TaskOrchestrator.cancelTask 1 exDoneState "a") "a"
      = TaskStatus.cancelled ∧
    cancelEvolves exDoneState (TaskOrchestrator.cancelTask 1 exDoneState "a") :=
  c4_cancel_overrides_terminal_amended 0 exDoneState "a" exDoneInst rfl

/-! ### Claim C1 -/

theorem getNext_size_pos (q : PriorityTaskQueue) (t : TaskInstance)
    (q1 : PriorityTaskQueue) (h : q.getNext = some (t, q1)) : 0 < q.size := by
  rcases hq : q.critical with _ | ⟨a, as⟩
  · rcases hh : q.high with _ | ⟨b, bs⟩
    · rcases hm : q.medium with _ | ⟨c, cs⟩
      · rcases hlow : q.low with _ | ⟨d, ds⟩
        · simp [PriorityTaskQueue.getNext, hq, hh, hm, hlow] at h
        · simp [PriorityTaskQueue.size, hlow]
      · simp [PriorityTaskQueue.size, hm]
    · simp [PriorityTaskQueue.size, hh]
  · simp [PriorityTaskQueue.size, hq]

/-- Claim C1, counterexample: with tasks `A` then `B` in the medium tier and
a strategy that declines `A`, the rejected task is re-added at the tail of
its tier, so the next task popped from that tier is `B`, not `A`. -/
theorem c1_pushback_tail_counterexample :
    TaskOrchestrator.assignTasks noStrategy exQueueC1 ["w"]
      = ({ critical := [], high := [], medium := [exTaskB, exTaskA], low := [] }, ["w"], []) ∧
    (PriorityTaskQueue.getNext
        { critical := [], high := [], medium := [exTaskB, exTaskA], low := [] }).map
      (fun p => p.1.id) = some "B" ∧
    exTaskA.id = "A" ∧ "B" ≠ "A" :=
  ⟨rfl, rfl, rfl, by decide⟩

/-- Claim C1 as amended: each pop takes the head (earliest enqueued) of the
highest non-empty priority tier, and when the strategy returns no worker the
popped task is pushed back at the tail of its tier (so, within its tier, it
is popped after the tasks already queued there) and the assignment phase
stops for the tick with no assignment recorded. -/
theorem c1_assignment_phase_amended :
    (∀ (q : PriorityTaskQueue) (t : TaskInstance) (ts : List TaskInstance),
        q.critical = t :: ts → q.getNext = some (t, { q with critical := ts })) ∧
    (∀ (q : PriorityTaskQueue) (t : TaskInstance) (ts : List TaskInstance),
        q.critical = [] → q.high = t :: ts →
        q.getNext = some (t, { q with high := ts })) ∧
    (∀ (q : PriorityTaskQueue) (t : TaskInstance) (ts : List TaskInstance),
        q.critical = [] → q.high = [] → q.medium = t :: ts →
        q.getNext = some (t, { q with medium := ts })) ∧
    (∀ (q : PriorityTaskQueue) (t : TaskInstance) (ts : List TaskInstance),
        q.critical = [] → q.high = [] → q.medium = [] → q.low = t :: ts →
        q.getNext = some (t, { q with low := ts })) ∧
    (∀ (strategy : TaskInstance → List String → Option String)
        (q : PriorityTaskQueue) (avail : List String) (t : TaskInstance)
        (q1 : PriorityTaskQueue),
        q.getNext = some (t, q1) → strategy t avail = none → avail ≠ [] →
        TaskOrchestrator.assignTasks strategy q avail = (q1.add t, avail, [])) := by
  refine ⟨?_, ?_, ?_, ?_, ?_⟩
  · intro q t ts h
    simp [PriorityTaskQueue.getNext, h]
  · intro q t ts h0 h
    simp [PriorityTaskQueue.getNext, h0, h]
  · intro q t ts h0 h1 h
    simp [PriorityTaskQueue.getNext, h0, h1, h]
  · intro q t ts h0 h1 h2 h
    simp [PriorityTaskQueue.getNext, h0, h1, h2, h]
  · intro strategy q avail t q1 h hs ha
    have hpos := getNext_size_pos q t q1 h
    obtain ⟨f, hf⟩ : ∃ f, q.size = f + 1 := ⟨q.size - 1, by omega⟩
    have hav : 0 < avail.length := by
      cases avail with
      | nil => exact absurd rfl ha
      | cons a as => simp
    rw [TaskOrchestrator.assignTasks, hf]
    simp [TaskOrchestrator.assignTasksAux, hpos, hav, h, hs]

/-! ### Claim C2 -/

theorem cascadeFail_queue (st : OrchState) (d : String) :
    (TaskOrchestrator.cascadeFailDependent st d).queue = st.queue := by
  rcases h : mapLookup st.tasks d with _ | dep
  · simp [TaskOrchestrator.cascadeFailDependent, h]
  · by_cases hp : dep.status = TaskStatus.pending <;>
      simp [TaskOrchestrator.cascadeFailDependent, h, hp]

theorem cascadeFail_frame (st : OrchState) (d j : String) (h : j ≠ d) :
    mapLookup (TaskOrchestrator.cascadeFailDependent st d).tasks j
      = mapLookup st.tasks j := by
  rcases hd : mapLookup st.tasks d with _ | dep
  · simp [TaskOrchestrator.cascadeFailDependent, hd]
  · by_cases hp : dep.status = TaskStatus.pending <;>
      simp [TaskOrchestrator.cascadeFailDependent, hd, hp, mapLookup_mapSet_ne st.tasks d j _ h]

theorem foldl_cascade_queue (l : List String) :
    ∀ st : OrchState, (l.foldl TaskOrchestrator.cascadeFailDependent st).queue = st.queue := by
  induction l with
  | nil => intro st; rfl
  | cons d rest ih =>
    intro st
    simp only [List.foldl_cons]
    rw [ih (TaskOrchestrator.cascadeFailDependent st d), cascadeFail_queue]

theorem foldl_cascade_frame (l : List String) :
    ∀ (st : OrchState) (j : String), j ∉ l →
      mapLookup (l.foldl TaskOrchestrator.cascadeFailDependent st).tasks j
        = mapLookup st.tasks j := by
  induction l with
  | nil => intro st j _; rfl
  | cons d rest ih =>
    intro st j h
    have hj : j ≠ d := fun hh => h (hh ▸ List.mem_cons_self d rest)
    have hrest : j ∉ rest := fun hh => h (List.mem_cons_of_mem d hh)
    simp only [List.foldl_cons]
    rw [ih _ j hrest, cascadeFail_frame st d j hj]

theorem foldl_cascade_pending (l : List String) :
    ∀ (st : OrchState) (j : String) (dep : TaskInstance), l.Nodup → j ∈ l →
      mapLookup st.tasks j = some dep → dep.status = TaskStatus.pending →
      mapLookup (l.foldl TaskOrchestrator.cascadeFailDependent st).tasks j
        = some { dep with status := TaskStatus.failed } := by
  induction l with
  | nil => intro st j dep _ hj; cases hj
  | cons d rest ih =>
    intro st j dep hnd hj hl hp
    rcases List.mem_cons.mp hj with rfl | hjr
    · have hstep : mapLookup (TaskOrchestrator.cascadeFailDependent st j).tasks j
          = some { dep with status := TaskStatus.failed } := by
        simp [TaskOrchestrator.cascadeFailDependent, hl, hp, mapLookup_mapSet_self]
      have hrest : j ∉ rest := (List.nodup_cons.mp hnd).1
      simp only [List.foldl_cons]
      rw [foldl_cascade_frame rest _ j hrest, hstep]
    · have hjd : j ≠ d := fun hh => ((List.nodup_cons.mp hnd).1 (hh ▸ hjr)).elim
      simp only [List.foldl_cons]
      exact ih _ j dep (List.nodup_cons.mp hnd).2 hjr
        ((cascadeFail_frame st d j hjd).trans hl) hp

/-- Claim C2, counterexample: in the chain `A → B → C` with `A` failed
beyond its retries, `handleTaskFailure` marks only the direct dependent `B`
failed; the transitive descendant `C` stays `Pending` — it neither reaches a
cascade status nor is touched at all. -/
theorem c2_transitive_not_cascaded_counterexample :
    TaskOrchestrator.getTaskStatus (TaskOrchestrator.handleTaskFailure exC2Chain "A" 0) "B"
      = TaskStatus.failed ∧
    TaskOrchestrator.getTaskStatus (TaskOrchestrator.handleTaskFailure exC2Chain "A" 0) "C"
      = TaskStatus.pending ∧
    exC2B.dependencies = ["A"] ∧ exC2C.dependencies = ["B"] :=
  ⟨rfl, rfl, rfl, rfl⟩

/-- Claim C2 as amended: when a task fails with its retries exhausted, the
code marks exactly its still-pending direct dependents `Failed` (there is no
distinct CascadeFailed status); tasks that are not direct dependents —
including all deeper descendants — are untouched, and the ready queue is not
modified.  For the fan-out graph `A → {B, C}` both direct dependents do end
`Failed` without ever being started. -/
theorem c2_cascade_amended :
    (∀ (s : OrchState) (a : String) (task : TaskInstance) (now : ℚ) (j : String),
        mapLookup s.tasks a = some task →
        TaskOrchestrator.shouldRetry s.retryPolicy task = false →
        task.dependents.Nodup →
        ((j ∉ task.dependents →
            mapLookup (TaskOrchestrator.handleTaskFailure s a now).tasks j
              = mapLookup s.tasks j) ∧
          (TaskOrchestrator.handleTaskFailure s a now).queue = s.queue ∧
          (∀ dep : TaskInstance, j ∈ task.dependents → mapLookup s.tasks j = some dep →
            dep.status = TaskStatus.pending →
            mapLookup (TaskOrchestrator.handleTaskFailure s a now).tasks j
              = some { dep with status := TaskStatus.failed }))) ∧
    (TaskOrchestrator.getTaskStatus (TaskOrchestrator.handleTaskFailure exC2Fan "A" 0) "B"
        = TaskStatus.failed ∧
      TaskOrchestrator.getTaskStatus (TaskOrchestrator.handleTaskFailure exC2Fan "A" 0) "C"
        = TaskStatus.failed) := by
  constructor
  · intro s a task now j h hretry hnd
    have heq : TaskOrchestrator.handleTaskFailure s a now
        = task.dependents.foldl TaskOrchestrator.cascadeFailDependent s := by
      simp [TaskOrchestrator.handleTaskFailure, h, hretry]
    refine ⟨fun hj => ?_, ?_, fun dep hj hdep hp => ?_⟩
    · rw [heq, foldl_cascade_frame _ _ _ hj]
    · rw [heq, foldl_cascade_queue]
    · rw [heq, foldl_cascade_pending _ _ _ _ hnd hj hdep hp]
  · exact ⟨rfl, rfl⟩

/-- Witness for C2: the amended frame-and-cascade facts instantiated on the
fan-out state at the direct dependent `B`. -/
theorem c2_cascade_amended_witness :
    ("B" ∉ exC2AFan.dependents →
      mapLookup (TaskOrchestrator.handleTaskFailure exC2Fan "A" 0).tasks "B"
        = mapLookup exC2Fan.tasks "B") ∧
    (TaskOrchestrator.handleTaskFailure exC2Fan "A" 0).queue = exC2Fan.queue ∧
    (∀ dep : TaskInstance, "B" ∈ exC2AFan.dependents →
      mapLookup exC2Fan.tasks "B" = some dep → dep.status = TaskStatus.pending →
      mapLookup (TaskOrchestrator.handleTaskFailure exC2Fan "A" 0).tasks "B"
        = some { dep with status := TaskStatus.failed }) :=
  c2_cascade_amended.1 exC2Fan "A" exC2AFan 0 "B" rfl rfl (by decide)

/-! ### Claim C3 -/

/-- Claim C3, counterexample: with the default exponential policy
(`initialDelay 1000`, `maxDelay 60000`), the delay scheduled before the
first retry (1-based attempt 1) is `500 = initialDelay / 2`, not the
`initialDelay` the spec formula `min(maxDelay, initialDelay * 2^(a-1))`
yields; under the linear strategy the first-retry delay is `0`. -/
theorem c3_first_retry_counterexample :
    TaskOrchestrator.calculateRetryDelay defaultRetryPolicy 1 = 500 ∧
    specBackoff defaultRetryPolicy.initialDelay defaultRetryPolicy.maxDelay 2 1 = 1000 ∧
    TaskOrchestrator.calculateRetryDelay linearRetryPolicy 1 = 0 ∧
    (500 : ℚ) ≠ 1000 := by
  refine ⟨?_, ?_, ?_, by norm_num⟩ <;>
    norm_num [TaskOrchestrator.calculateRetryDelay, specBackoff, defaultRetryPolicy,
      linearRetryPolicy]

/-- Claim C3 as amended: writing `a` for the 1-based attempt number, the
delay scheduled before the retry after attempt `a` fails is
`min(initialDelay, maxDelay)` under constant backoff,
`min(initialDelay * (a-1), maxDelay)` under linear backoff (zero before the
first retry), and `min(initialDelay * 2^(a-2), maxDelay)` under exponential
backoff (half of `initialDelay` before the first retry); `handleTaskFailure`
schedules the retry of a task with `attempts = a` at exactly
`now + calculateRetryDelay(a)`. -/
theorem c3_backoff_amended (p : RetryPolicy) (a : ℕ) (_ha : 1 ≤ a) :
    (p.backoffStrategy = BackoffStrategy.constant →
        TaskOrchestrator.calculateRetryDelay p a = min p.initialDelay p.maxDelay) ∧
    (p.backoffStrategy = BackoffStrategy.linear →
        TaskOrchestrator.calculateRetryDelay p a
          = min (p.initialDelay * ((a : ℚ) - 1)) p.maxDelay) ∧
    (p.backoffStrategy = BackoffStrategy.exponential →
        TaskOrchestrator.calculateRetryDelay p a
          = min (p.initialDelay * (2 : ℚ) ^ ((a : ℤ) - 2)) p.maxDelay) ∧
    (∀ (s : OrchState) (taskId : String) (task : TaskInstance) (now : ℚ),
        mapLookup s.tasks taskId = some task →
        TaskOrchestrator.shouldRetry s.retryPolicy task = true →
        mapLookup (TaskOrchestrator.handleTaskFailure s taskId now).tasks taskId
          = some { task with
              status := TaskStatus.pending
              assignedAgent := none
              nextRetryTime :=
                some (now + TaskOrchestrator.calculateRetryDelay s.retryPolicy task.attempts) }) := by
  refine ⟨?_, ?_, ?_, ?_⟩
  · intro h
    simp [TaskOrchestrator.calculateRetryDelay, h]
  · intro h
    simp only [TaskOrchestrator.calculateRetryDelay, h]
    push_cast
    ring_nf
  · intro h
    simp only [TaskOrchestrator.calculateRetryDelay, h, sub_sub]
    norm_num
  · intro s taskId task now h hr
    simp [TaskOrchestrator.handleTaskFailure, h, hr, mapLookup_mapSet_self]

/-- Witness for C3: the amended formulas at the default policy and the
second attempt, where the exponential delay is `initialDelay * 2^0`. -/
theorem c3_backoff_amended_witness :
    (defaultRetryPolicy.backoffStrategy = BackoffStrategy.constant →
        TaskOrchestrator.calculateRetryDelay defaultRetryPolicy 2
          = min defaultRetryPolicy.initialDelay defaultRetryPolicy.maxDelay) ∧
    (defaultRetryPolicy.backoffStrategy = BackoffStrategy.linear →
        TaskOrchestrator.calculateRetryDelay defaultRetryPolicy 2
          = min (defaultRetryPolicy.initialDelay * (((2 : ℕ) : ℚ) - 1))
              defaultRetryPolicy.maxDelay) ∧
    (defaultRetryPolicy.backoffStrategy = BackoffStrategy.exponential →
        TaskOrchestrator.calculateRetryDelay defaultRetryPolicy 2
          = min (defaultRetryPolicy.initialDelay * (2 : ℚ) ^ (((2 : ℕ) : ℤ) - 2))
              defaultRetryPolicy.maxDelay) ∧
    (∀ (s : OrchState) (taskId : String) (task : TaskInstance) (now : ℚ),
        mapLookup s.tasks taskId = some task →
        TaskOrchestrator.shouldRetry s.retryPolicy task = true →
        mapLookup (TaskOrchestrator.handleTaskFailure s taskId now).tasks taskId
          = some { task with
              status := TaskStatus.pending
              assignedAgent := none
              nextRetryTime :=
                some (now + TaskOrchestrator.calculateRetryDelay s.retryPolicy task.attempts) }) := by
  exact c3_backoff_amended defaultRetryPolicy 2 (by norm_num)

/-! ### Claim C5 -/

theorem addDependentTo_frame (tid : String) (m : List (String × TaskInstance))
    (d j : String) (h : j ≠ d) :
    mapLookup (TaskOrchestrator.addDependentTo tid m d) j = mapLookup m j := by
  rcases hd : mapLookup m d with _ | dep
  · simp [TaskOrchestrator.addDependentTo, hd]
  · simp [TaskOrchestrator.addDependentTo, hd, mapLookup_mapSet_ne m d j _ h]

theorem foldl_addDependentTo_frame (l : List String) (tid : String) :
    ∀ (m : List (String × TaskInstance)) (j : String), j ∉ l →
      mapLookup (l.foldl (TaskOrchestrator.addDependentTo tid) m) j = mapLookup m j := by
  induction l with
  | nil => intro m j _; rfl
  | cons d rest ih =>
    intro m j h
    have hj : j ≠ d := fun hh => h (hh ▸ List.mem_cons_self d rest)
    have hrest : j ∉ rest := fun hh => h (List.mem_cons_of_mem d hh)
    simp only [List.foldl_cons]
    rw [ih _ j hrest, addDependentTo_frame tid m d j hj]

/-- Claim C5, counterexample: the stored task `a` is terminal (`Completed`,
two recorded facts shown), yet `submitTask` of a task with the same id is
accepted without error and replaces the stored task with a fresh `Pending`
instance whose `attempts` and `results` are reset — neither the
InvalidArgument rejection nor idempotence holds. -/
theorem c5_resubmit_terminal_counterexample :
    mapLookup exDoneState.tasks "a" = some exDoneInst ∧
    exDoneInst.status = TaskStatus.completed ∧ exDoneInst.attempts = 1 ∧
    (TaskOrchestrator.submitTask exDoneState exC5Task).toOption.map
        (fun s1 => TaskOrchestrator.getTaskStatus s1 "a") = some TaskStatus.pending ∧
    (TaskOrchestrator.submitTask exDoneState exC5Task).toOption.map
        (fun s1 => (mapLookup s1.tasks "a").map (fun tk => (tk.attempts, tk.results)))
      = some (some (0, [])) :=
  ⟨rfl, rfl, rfl, rfl, rfl⟩

/-- Claim C5 as amended: `submitTask` never inspects an existing task under
the submitted id — whether that task is terminal or live, the only rejection
is the queue-full check, and on acceptance the task map ends up holding a
fresh `Pending` instance (attempts 0, no results, empty dependents) under
that id, discarding any previous state. -/
theorem c5_submit_overwrites_amended (s : OrchState) (t : Task)
    (hq : s.queue.size < s.maxQueueSize) (hself : t.id ∉ t.dependencies) :
    ∃ s1, TaskOrchestrator.submitTask s t = Except.ok s1 ∧
      mapLookup s1.tasks t.id = some
        { id := t.id
          priority := t.priority
          status := TaskStatus.pending
          assignedAgent := none
          attempts := 0
          results := []
          dependencies := t.dependencies
          dependents := []
          nextRetryTime := none } := by
  have hguard : ¬ s.queue.size ≥ s.maxQueueSize := by omega
  have hlook : ∀ m0 : List (String × TaskInstance),
      mapLookup
        (TaskOrchestrator.updateDependencyGraph (mapSet m0 t.id
          { id := t.id
            priority := t.priority
            status := TaskStatus.pending
            assignedAgent := none
            attempts := 0
            results := []
            dependencies := t.dependencies
            dependents := []
            nextRetryTime := none })
          { id := t.id
            priority := t.priority
            status := TaskStatus.pending
            assignedAgent := none
            attempts := 0
            results := []
            dependencies := t.dependencies
            dependents := []
            nextRetryTime := none }) t.id
        = some
          { id := t.id
            priority := t.priority
            status := TaskStatus.pending
            assignedAgent := none
            attempts := 0
            results := []
            dependencies := t.dependencies
            dependents := []
            nextRetryTime := none } := by
    intro m0
    rw [TaskOrchestrator.updateDependencyGraph]
    rw [foldl_addDependentTo_frame t.dependencies t.id _ t.id hself]
    exact mapLookup_mapSet_self m0 t.id _
  simp only [TaskOrchestrator.submitTask, if_neg hguard]
  refine ⟨_, rfl, ?_⟩
  split
  · exact hlook s.tasks
  · exact hlook s.tasks

/-- Witness for C5: resubmitting the terminal id `a` succeeds and stores the
reset instance. -/
theorem c5_submit_overwrites_amended_witness :
    ∃ s1, TaskOrchestrator.submitTask exDoneState exC5Task = Except.ok s1 ∧
      mapLookup s1.tasks "a" = some
        { id := "a"
          priority := Priority.medium
          status := TaskStatus.pending
          assignedAgent := none
          attempts := 0
          results := []
          dependencies := []
          dependents := []
          nextRetryTime := none } := by
  exact c5_submit_overwrites_amended exDoneState exC5Task (by decide) (by decide)

/-! ### Claim C6 -/

theorem enforceMemoryLimits_of_le (s : HiveMind)
    (h : s.knowledge.length ≤ s.maxMemorySize) : HiveMind.enforceMemoryLimits s = s := by
  rw [HiveMind.enforceMemoryLimits, if_pos h]

theorem enforceMemoryLimits_consensusRequests (s : HiveMind) :
    (HiveMind.enforceMemoryLimits s).consensusRequests = s.consensusRequests := by
  rw [HiveMind.enforceMemoryLimits]
  split <;> rfl

theorem enforceMemoryLimits_agents (s : HiveMind) :
    (HiveMind.enforceMemoryLimits s).agents = s.agents := by
  rw [HiveMind.enforceMemoryLimits]
  split <;> rfl

theorem share_consensusRequests (s : HiveMind) (agentId key : String)
    (value : KnowledgeValue) (conf : ℚ) (ttl : Option ℕ) (now : ℕ) :
    (HiveMind.share s agentId key value conf ttl now).consensusRequests
      = s.consensusRequests := by
  cases h : mapLookup s.knowledge key <;>
    simp only [HiveMind.share, h] <;>
    rw [enforceMemoryLimits_consensusRequests]

theorem mergeKnowledge_confidence (s : HiveMind) (existing nw : KnowledgeEntry) :
    (HiveMind.mergeKnowledge s existing nw).confidence
      = ((HiveMind.mergeKnowledge s existing nw).votes.length : ℚ)
          / (s.agents.length : ℚ) := by
  rw [HiveMind.mergeKnowledge]
  split <;> rfl

/-- Claim C6, counterexample: with two active workers, the very first
`Share` of key `k` (default confidence 1) stores confidence `1`, not
`|votes| / |activeWorkers| = 1/2`. -/
theorem c6_first_share_confidence_counterexample :
    exHiveC6.agents.length = 2 ∧
    mapLookup (HiveMind.share exHiveC6 "w1" "k"
        (KnowledgeValue.payload "v") 1 none 0).knowledge "k" = some exC6Entry ∧
    exC6Entry.confidence = 1 ∧ exC6Entry.votes.length = 1 ∧
    (1 : ℚ) ≠ (1 : ℚ) / (2 : ℚ) :=
  ⟨rfl, rfl, rfl, rfl, by norm_num⟩

/-- Claim C6 as amended: the confidence invariant
`confidence = |votes| / |activeWorkers|` is established only by the paths
that recompute it — a `Share` that merges into an existing entry, and worker
unregistration while workers remain.  A first `Share` stores the caller's
confidence verbatim with a single self-vote, and worker registration leaves
every stored entry (hence every stored confidence) unchanged. -/
theorem c6_confidence_amended :
    (∀ (s : HiveMind) (agentId key : String) (value : KnowledgeValue) (conf : ℚ)
        (ttl : Option ℕ) (now : ℕ) (existing : KnowledgeEntry),
        mapLookup s.knowledge key = some existing →
        s.knowledge.length ≤ s.maxMemorySize →
        ∃ e, mapLookup (HiveMind.share s agentId key value conf ttl now).knowledge key
            = some e ∧
          e.confidence = (e.votes.length : ℚ) / (s.agents.length : ℚ)) ∧
    (∀ (s : HiveMind) (agentId key : String) (value : KnowledgeValue) (conf : ℚ)
        (ttl : Option ℕ) (now : ℕ),
        mapLookup s.knowledge key = none →
        s.knowledge.length < s.maxMemorySize →
        ∃ e, mapLookup (HiveMind.share s agentId key value conf ttl now).knowledge key
            = some e ∧
          e.confidence = conf ∧ e.votes = [(agentId, true)]) ∧
    (∀ (s : HiveMind) (agentId : String),
        (HiveMind.registerAgent s agentId).knowledge = s.knowledge) ∧
    (∀ (s : HiveMind) (agentId k : String) (e : KnowledgeEntry),
        0 < (HiveMind.unregisterAgent s agentId).agents.length →
        mapLookup (HiveMind.unregisterAgent s agentId).knowledge k = some e →
        e.confidence = (e.votes.length : ℚ)
          / ((HiveMind.unregisterAgent s agentId).agents.length : ℚ)) := by
  refine ⟨?_, ?_, ?_, ?_⟩
  · intro s agentId key value conf ttl now existing h hlen
    simp only [HiveMind.share, h]
    rw [enforceMemoryLimits_of_le]
    · exact ⟨_, mapLookup_mapSet_self _ _ _, mergeKnowledge_confidence s existing _⟩
    · simpa [mapSet_length_of_lookup s.knowledge key _ existing h] using hlen
  · intro s agentId key value conf ttl now h hlen
    simp only [HiveMind.share, h]
    rw [enforceMemoryLimits_of_le]
    · exact ⟨_, mapLookup_mapSet_self _ _ _, rfl, rfl⟩
    · simp only [mapSet_length_of_none s.knowledge key _ h]
      omega
  · intro s agentId
    rfl
  · intro s agentId k e hpos hlook
    simp only [HiveMind.unregisterAgent, HiveMind.cleanupAgentData] at hlook hpos ⊢
    rw [mapLookup_map_value] at hlook
    rcases h0 : mapLookup s.knowledge k with _ | e0
    · rw [h0] at hlook
      cases hlook
    · rw [h0] at hlook
      have he : HiveMind.cleanupEntry { s with agents := setDelete s.agents agentId }
          agentId e0 = e := Option.some.inj hlook
      rw [← he, HiveMind.cleanupEntry]
      simp only [if_pos hpos]

/-- Witness for C6: the first-share conjunct of the amended statement at the
two-worker hive. -/
theorem c6_confidence_amended_witness :
    ∃ e, mapLookup (HiveMind.share exHiveC6 "w1" "k"
          (KnowledgeValue.payload "v") 1 none 0).knowledge "k" = some e ∧
      e.confidence = 1 ∧ e.votes = [("w1", true)] :=
  c6_confidence_amended.2.1 exHiveC6 "w1" "k" (KnowledgeValue.payload "v") 1 none 0
    rfl (by decide)

/-! ### Claim C7 -/

theorem finalizeConsensus_lookup (s : HiveMind) (rid : String) (now : ℕ)
    (req : ConsensusRequest) (h : mapLookup s.consensusRequests rid = some req)
    (hp : req.status = ConsensusStatus.pending) :
    ∃ st, mapLookup (HiveMind.finalizeConsensus s rid now).consensusRequests rid
        = some { req with status := st } ∧ st ≠ ConsensusStatus.pending := by
  have hnp : ¬ (req.status ≠ ConsensusStatus.pending) := by simp [hp]
  simp only [HiveMind.finalizeConsensus, h, if_neg hnp]
  rw [share_consensusRequests]
  refine ⟨_, mapLookup_mapSet_self _ _ _, ?_⟩
  split_ifs <;> simp

/-- Claim C7, counterexample: session `r` is pending with three active
workers and threshold `9/10`; `w1` votes, then votes again.  The repeated
vote is accepted (no rejection) and replaces the recorded vote — the stored
vote's value flips to `false` while the vote count stays `1`. -/
theorem c7_revote_replaces_counterexample :
    HiveMind.vote exHiveC7 "w1" "r" true 1 0 = Except.ok exC7S1 ∧
    HiveMind.vote exC7S1 "w1" "r" false 1 0 = Except.ok exC7S2 ∧
    (mapLookup exC7S2.consensusRequests "r").map
        (fun r => (r.votes.length, mapLookup r.votes "w1", r.status))
      = some (1, some { agentId := "w1", value := false, confidence := 1 },
          ConsensusStatus.pending) := by
  have hc : ¬ ((1 : ℚ) ≥ (3 : ℚ) * (9 / 10 : ℚ)) := by norm_num
  refine ⟨?_, ?_, rfl⟩ <;>
    simp [HiveMind.vote, exHiveC7, exC7S1, exC7S2, exReqC7, exReqC7v1, exReqC7v2,
      mapLookup, mapSet, hc]

/-- Claim C7 as amended: a vote on a session whose status is not pending is
rejected; a repeated vote by the same worker is accepted but replaces the
worker's recorded vote, leaving the vote count unchanged; once the
(possibly replaced) vote count reaches `consensusThreshold * |activeWorkers|`
the session is finalized immediately to a non-pending status; and
`finalizeConsensus` on a non-pending session changes nothing, so a finalized
status never changes. -/
theorem c7_vote_amended :
    (∀ (s : HiveMind) (agentId requestId : String) (value : Bool) (conf : ℚ) (now : ℕ)
        (req : ConsensusRequest),
        mapLookup s.consensusRequests requestId = some req →
        req.status ≠ ConsensusStatus.pending →
        HiveMind.vote s agentId requestId value conf now
          = Except.error "Invalid or completed consensus request") ∧
    (∀ (s : HiveMind) (agentId requestId : String) (value : Bool) (conf : ℚ) (now : ℕ)
        (req : ConsensusRequest) (v0 : Vote),
        mapLookup s.consensusRequests requestId = some req →
        req.status = ConsensusStatus.pending →
        mapLookup req.votes agentId = some v0 →
        ∃ s1 req1, HiveMind.vote s agentId requestId value conf now = Except.ok s1 ∧
          mapLookup s1.consensusRequests requestId = some req1 ∧
          req1.votes.length = req.votes.length ∧
          mapLookup req1.votes agentId
            = some { agentId := agentId, value := value, confidence := conf }) ∧
    (∀ (s : HiveMind) (agentId requestId : String) (value : Bool) (conf : ℚ) (now : ℕ)
        (req : ConsensusRequest),
        mapLookup s.consensusRequests requestId = some req →
        req.status = ConsensusStatus.pending →
        ((mapSet req.votes agentId
            { agentId := agentId, value := value, confidence := conf }).length : ℚ)
          ≥ (s.agents.length : ℚ) * s.consensusThreshold →
        ∃ s1 req1, HiveMind.vote s agentId requestId value conf now = Except.ok s1 ∧
          mapLookup s1.consensusRequests requestId = some req1 ∧
          req1.status ≠ ConsensusStatus.pending) ∧
    (∀ (s : HiveMind) (requestId : String) (now : ℕ) (req : ConsensusRequest),
        mapLookup s.consensusRequests requestId = some req →
        req.status ≠ ConsensusStatus.pending →
        HiveMind.finalizeConsensus s requestId now = s) := by
  refine ⟨?_, ?_, ?_, ?_⟩
  · intro s agentId requestId value conf now req h hst
    simp [HiveMind.vote, h, hst]
  · intro s agentId requestId value conf now req v0 h hst hv
    have hnp : ¬ (req.status ≠ ConsensusStatus.pending) := by simp [hst]
    by_cases hc : ((mapSet req.votes agentId
        { agentId := agentId, value := value, confidence := conf }).length : ℚ)
        ≥ (s.agents.length : ℚ) * s.consensusThreshold
    · simp only [HiveMind.vote, h, if_neg hnp, if_pos hc]
      have hpend1 : ({ req with votes := (mapSet req.votes agentId
          ⟨agentId, value, conf⟩) } : ConsensusRequest).status
            = ConsensusStatus.pending := hst
      obtain ⟨st, hlook, _⟩ := finalizeConsensus_lookup
        { s with consensusRequests := (mapSet s.consensusRequests requestId
            { req with votes := (mapSet req.votes agentId ⟨agentId, value, conf⟩) }) }
        requestId now
        { req with votes := (mapSet req.votes agentId ⟨agentId, value, conf⟩) }
        (mapLookup_mapSet_self s.consensusRequests requestId _) hpend1
      refine ⟨_, _, rfl, hlook, ?_, ?_⟩
      · exact mapSet_length_of_lookup req.votes agentId _ v0 hv
      · exact mapLookup_mapSet_self req.votes agentId _
    · simp only [HiveMind.vote, h, if_neg hnp, if_neg hc]
      refine ⟨_, _, rfl, mapLookup_mapSet_self s.consensusRequests requestId _, ?_, ?_⟩
      · exact mapSet_length_of_lookup req.votes agentId _ v0 hv
      · exact mapLookup_mapSet_self req.votes agentId _
  · intro s agentId requestId value conf now req h hst hc
    have hnp : ¬ (req.status ≠ ConsensusStatus.pending) := by simp [hst]
    simp only [HiveMind.vote, h, if_neg hnp, if_pos hc]
    have hpend1 : ({ req with votes := (mapSet req.votes agentId
        ⟨agentId, value, conf⟩) } : ConsensusRequest).status
          = ConsensusStatus.pending := hst
    obtain ⟨st, hlook, hne⟩ := finalizeConsensus_lookup
      { s with consensusRequests := (mapSet s.consensusRequests requestId
          { req with votes := (mapSet req.votes agentId ⟨agentId, value, conf⟩) }) }
      requestId now
      { req with votes := (mapSet req.votes agentId ⟨agentId, value, conf⟩) }
      (mapLookup_mapSet_self s.consensusRequests requestId _) hpend1
    exact ⟨_, _, rfl, hlook, hne⟩
  · intro s requestId now req h hst
    simp [HiveMind.finalizeConsensus, h, hst]

/-- Witness for C7: a vote on the terminal session `d` is rejected. -/
theorem c7_vote_amended_witness :
    HiveMind.vote exHiveC7Done "w1" "d" true 1 0
      = Except.error "Invalid or completed consensus request" :=
  c7_vote_amended.1 exHiveC7Done "w1" "d" true 1 0 exReqC7Done rfl (by decide)

/-! ### Claim C8 -/

theorem entryLe_iff (a b : KnowledgeEntry) :
    HiveMind.entryLe a b = true ↔
      (a.confidence < b.confidence ∨
        (a.confidence = b.confidence ∧ a.timestamp ≤ b.timestamp)) := by
  by_cases h : a.confidence = b.confidence
  · simp [HiveMind.entryLe, h]
  · simp [HiveMind.entryLe, h]

theorem entryLe_trans (a b c : KnowledgeEntry)
    (hab : HiveMind.entryLe a b = true) (hbc : HiveMind.entryLe b c = true) :
    HiveMind.entryLe a c = true := by
  rw [entryLe_iff] at hab hbc ⊢
  rcases hab with hab | ⟨hab, hab2⟩ <;> rcases hbc with hbc | ⟨hbc, hbc2⟩
  · exact Or.inl (hab.trans hbc)
  · exact Or.inl (hbc ▸ hab)
  · exact Or.inl (hab ▸ hbc)
  · exact Or.inr ⟨hab.trans hbc, hab2.trans hbc2⟩

theorem entryLe_total (a b : KnowledgeEntry) :
    HiveMind.entryLe a b = true ∨ HiveMind.entryLe b a = true := by
  rcases lt_trichotomy a.confidence b.confidence with h | h | h
  · exact Or.inl ((entryLe_iff a b).mpr (Or.inl h))
  · rcases Nat.le_total a.timestamp b.timestamp with ht | ht
    · exact Or.inl ((entryLe_iff a b).mpr (Or.inr ⟨h, ht⟩))
    · exact Or.inr ((entryLe_iff b a).mpr (Or.inr ⟨h.symm, ht⟩))
  · exact Or.inr ((entryLe_iff b a).mpr (Or.inl h))

theorem foldl_mapDelete_eq_filter {α : Type} (l : List (String × α)) :
    ∀ m : List (String × α),
      l.foldl (fun mm kv => mapDelete mm kv.1) m
        = m.filter (fun p => l.all (fun kv => p.1 ≠ kv.1)) := by
  induction l with
  | nil => intro m; simp
  | cons kv rest ih =>
    intro m
    simp only [List.foldl_cons]
    rw [ih (mapDelete m kv.1)]
    rw [mapDelete, List.filter_filter]
    apply List.filter_congr
    intro p _
    exact Bool.and_comm _ _

/-- The sorted snapshot `enforceMemoryLimits` builds. -/
theorem enforceMemoryLimits_eq (s : HiveMind)
    (hgt : s.maxMemorySize < s.knowledge.length) :
    (HiveMind.enforceMemoryLimits s).knowledge
      = s.knowledge.filter (fun p =>
          ((s.knowledge.mergeSort (fun a b => HiveMind.entryLe a.2 b.2)).take
            ((s.knowledge.mergeSort (fun a b => HiveMind.entryLe a.2 b.2)).length
              - s.maxMemorySize)).all (fun kv => p.1 ≠ kv.1)) := by
  have hnle : ¬ s.knowledge.length ≤ s.maxMemorySize := by omega
  simp only [HiveMind.enforceMemoryLimits, if_neg hnle]
  rw [foldl_mapDelete_eq_filter]

/-- The eviction pass: with distinct keys and an overfull store, exactly
`maxMemorySize` entries remain and every evicted entry sorts no later than
every survivor under the (confidence, timestamp) comparator. -/
theorem enforceMemoryLimits_spec (s : HiveMind)
    (hnd : (s.knowledge.map Prod.fst).Nodup)
    (hgt : s.maxMemorySize < s.knowledge.length) :
    (HiveMind.enforceMemoryLimits s).knowledge.length = s.maxMemorySize ∧
    (∀ kv kv' : String × KnowledgeEntry, kv ∈ s.knowledge →
      kv.1 ∉ (HiveMind.enforceMemoryLimits s).knowledge.map Prod.fst →
      kv' ∈ (HiveMind.enforceMemoryLimits s).knowledge →
      HiveMind.entryLe kv.2 kv'.2 = true) := by
  have heq := enforceMemoryLimits_eq s hgt
  have hperm : (s.knowledge.mergeSort (fun a b => HiveMind.entryLe a.2 b.2)).Perm
      s.knowledge := List.mergeSort_perm _ _
  have hlen : (s.knowledge.mergeSort (fun a b => HiveMind.entryLe a.2 b.2)).length
      = s.knowledge.length := hperm.length_eq
  have hsorted : List.Pairwise
      (fun a b : String × KnowledgeEntry => HiveMind.entryLe a.2 b.2 = true)
      (s.knowledge.mergeSort (fun a b => HiveMind.entryLe a.2 b.2)) := by
    refine List.sorted_mergeSort ?_ ?_ s.knowledge
    · intro a b c h1 h2
      exact entryLe_trans a.2 b.2 c.2 h1 h2
    · intro a b
      rcases entryLe_total a.2 b.2 with h | h <;> simp [h]
  generalize hL : s.knowledge.mergeSort (fun a b => HiveMind.entryLe a.2 b.2) = L
    at heq hperm hlen hsorted
  have hndL : (L.map Prod.fst).Nodup :=
    ((hperm.map Prod.fst).nodup_iff).mpr hnd
  have hsplit : L.take (L.length - s.maxMemorySize) ++ L.drop (L.length - s.maxMemorySize)
      = L := List.take_append_drop _ L
  have hdisj : ∀ a ∈ (L.take (L.length - s.maxMemorySize)).map Prod.fst,
      a ∉ (L.drop (L.length - s.maxMemorySize)).map Prod.fst := by
    rw [← hsplit, List.map_append] at hndL
    exact fun a ha hb => (List.nodup_append.mp hndL).2.2 ha hb
  -- membership in the take prefix falsifies the keep predicate
  have hPfalse : ∀ kv ∈ L.take (L.length - s.maxMemorySize),
      ¬ ((L.take (L.length - s.maxMemorySize)).all (fun kv2 => kv.1 ≠ kv2.1) = true) := by
    intro kv hkv hall
    have := (List.all_eq_true.mp hall) kv hkv
    simp at this
  -- membership in the drop suffix validates the keep predicate
  have hPtrue : ∀ kv ∈ L.drop (L.length - s.maxMemorySize),
      (L.take (L.length - s.maxMemorySize)).all (fun kv2 => kv.1 ≠ kv2.1) = true := by
    intro kv hkv
    refine List.all_eq_true.mpr ?_
    intro kv2 hkv2
    simp only [decide_eq_true_eq]
    intro hkk
    exact hdisj kv2.1 (List.mem_map.mpr ⟨kv2, hkv2, rfl⟩)
      (hkk ▸ List.mem_map.mpr ⟨kv, hkv, rfl⟩)

  have hfiltake : (L.take (L.length - s.maxMemorySize)).filter
      (fun p => (L.take (L.length - s.maxMemorySize)).all (fun kv => p.1 ≠ kv.1)) = [] := by
    rw [List.filter_eq_nil_iff]
    intro kv hkv
    exact fun hall => hPfalse kv hkv hall
  have hfildrop : (L.drop (L.length - s.maxMemorySize)).filter
      (fun p => (L.take (L.length - s.maxMemorySize)).all (fun kv => p.1 ≠ kv.1))
      = L.drop (L.length - s.maxMemorySize) := by
    rw [List.filter_eq_self]
    intro kv hkv
    exact hPtrue kv hkv
  have hfilL : L.filter
      (fun p => (L.take (L.length - s.maxMemorySize)).all (fun kv => p.1 ≠ kv.1))
      = L.drop (L.length - s.maxMemorySize) := by
    have hstep : L.filter
        (fun p => (L.take (L.length - s.maxMemorySize)).all (fun kv => p.1 ≠ kv.1))
        = (L.take (L.length - s.maxMemorySize)
            ++ L.drop (L.length - s.maxMemorySize)).filter
          (fun p => (L.take (L.length - s.maxMemorySize)).all (fun kv => p.1 ≠ kv.1)) := by
      rw [hsplit]
    rw [hstep, List.filter_append, hfiltake, hfildrop, List.nil_append]
  have hpermdrop : (HiveMind.enforceMemoryLimits s).knowledge.Perm
      (L.drop (L.length - s.maxMemorySize)) := by
    rw [heq, ← hfilL]
    exact (hperm.filter _).symm
  constructor
  · rw [hpermdrop.length_eq, List.length_drop]
    omega
  · intro kv kv' hkv hdropped hkept
    have hmem2 : kv' ∈ L.drop (L.length - s.maxMemorySize) :=
      hpermdrop.mem_iff.mp hkept
    have hkvL : kv ∈ L := hperm.mem_iff.mpr hkv
    have hkvtake : kv ∈ L.take (L.length - s.maxMemorySize) := by
      have hkvsplit : kv ∈ L.take (L.length - s.maxMemorySize)
          ++ L.drop (L.length - s.maxMemorySize) := by
        rw [hsplit]
        exact hkvL
      rcases List.mem_append.mp hkvsplit with h1 | h1
      · exact h1
      · exfalso
        apply hdropped
        rw [heq]
        refine List.mem_map.mpr ⟨kv, ?_, rfl⟩
        refine List.mem_filter.mpr ⟨hkv, ?_⟩
        exact hPtrue kv h1
    have hsorted2 : List.Pairwise
        (fun a b : String × KnowledgeEntry => HiveMind.entryLe a.2 b.2 = true)
        (L.take (L.length - s.maxMemorySize) ++ L.drop (L.length - s.maxMemorySize)) := by
      rw [hsplit]
      exact hsorted
    exact (List.pairwise_append.mp hsorted2).2.2 kv hkvtake kv' hmem2

/-- Claim C8 (confirmed): an insertion that pushes the stored entry count
over `maxKnowledge` (`maxMemorySize`) evicts lowest-confidence-first, ties
oldest-first, until exactly `maxKnowledge` entries remain: with distinct
keys the survivor count equals the limit, every evicted entry compares no
later than every survivor under the (confidence, timestamp) order, and in
the concrete run with limit 3 and confidences 0.9, 0.8, 0.2, 0.7 exactly
the 0.2 entry is evicted — `Get` on it is absent, `Get` on the others
returns their values. -/
theorem c8_eviction :
    (∀ s : HiveMind, s.knowledge.length ≤ s.maxMemorySize →
        HiveMind.enforceMemoryLimits s = s) ∧
    (∀ s : HiveMind, (s.knowledge.map Prod.fst).Nodup →
        s.maxMemorySize < s.knowledge.length →
        (HiveMind.enforceMemoryLimits s).knowledge.length = s.maxMemorySize) ∧
    (∀ (s : HiveMind) (kv kv' : String × KnowledgeEntry),
        (s.knowledge.map Prod.fst).Nodup →
        s.maxMemorySize < s.knowledge.length →
        kv ∈ s.knowledge →
        kv.1 ∉ (HiveMind.enforceMemoryLimits s).knowledge.map Prod.fst →
        kv' ∈ (HiveMind.enforceMemoryLimits s).knowledge →
        HiveMind.entryLe kv.2 kv'.2 = true) ∧
    ((HiveMind.retrieve exC8S4 "k3" 4).1 = none ∧
      (HiveMind.retrieve exC8S4 "k1" 4).1 = some (KnowledgeValue.payload "v1") ∧
      (HiveMind.retrieve exC8S4 "k2" 4).1 = some (KnowledgeValue.payload "v2") ∧
      (HiveMind.retrieve exC8S4 "k4" 4).1 = some (KnowledgeValue.payload "v4") ∧
      exC8S4.knowledge.length = 3) := by
  refine ⟨?_, ?_, ?_, ?_⟩
  · exact fun s h => enforceMemoryLimits_of_le s h
  · exact fun s hnd hgt => (enforceMemoryLimits_spec s hnd hgt).1
  · exact fun s kv kv' hnd hgt h1 h2 h3 => (enforceMemoryLimits_spec s hnd hgt).2 kv kv' h1 h2 h3
  · have h4 : exC8S4.knowledge = [("k1", exC8E1), ("k2", exC8E2), ("k4", exC8E4)] := by
      simp [exC8S4, exC8S3, exC8S2, exC8S1, exHiveC8, exC8E1, exC8E2, exC8E4,
        HiveMind.share, HiveMind.enforceMemoryLimits, HiveMind.mergeKnowledge,
        mapLookup, mapSet, mapDelete, HiveMind.entryLe, List.mergeSort]
      norm_num [List.merge]
      simp
    refine ⟨?_, ?_, ?_, ?_, ?_⟩ <;>
      simp [HiveMind.retrieve, h4, mapLookup, exC8E1, exC8E2, exC8E4]

/-- Witness for C1: the pop-reject-stop step at a one-task medium tier. -/
theorem c1_assignment_phase_amended_witness :
    TaskOrchestrator.assignTasks noStrategy
        { critical := [], high := [], medium := [exTaskB], low := [] } ["w"]
      = (PriorityTaskQueue.add { critical := [], high := [], medium := [], low := [] } exTaskB,
         ["w"], []) :=
  c1_assignment_phase_amended.2.2.2.2 noStrategy
    { critical := [], high := [], medium := [exTaskB], low := [] } ["w"] exTaskB
    { critical := [], high := [], medium := [], low := [] } rfl rfl (by decide)

end Workflow
